import Mathlib

/-!
Verification of the price-series data model and response-dispatch layer of
the `python-frank-energie` client (`models.py`, `frank_energie.py`).

Shallow embedding conventions:
* Timestamps (`datetime` values, always UTC-aware in the source) are modelled
  as seconds since the epoch (`Nat`); ISO-8601 parsing is an external
  collaborator and raw records carry already-parsed timestamps.
* Python floats are modelled as rationals (`Rat`); Python's `round(x, n)`
  (round-half-to-even on the scaled value) is `pyRound`.
* A raising Python operation is modelled as `Option`/`Except`; an unhandled
  exception (IndexError from `[0]`, ValueError from `min([])`,
  ZeroDivisionError from `/len(...)`) is `none`.
* Python dict lookups `d.get(k)` are `Option` fields; the truthiness test
  `if errors := d.get("errors")` is modelled by matching `some (e :: rest)`
  (a present *non-empty* list), since `None` and `[]` are both falsy.
-/

/-- Round half to even on a rational, as Python's builtin `round` does on the
scaled value: nearest integer, ties going to the even neighbour. -/
def pyRoundHalfEven (x : Rat) : Int :=
  let f : Int := ⌊x⌋
  let d : Rat := x - f
  if d < 1/2 then f
  else if 1/2 < d then f + 1
  else if f % 2 = 0 then f else f + 1

/-- Python's `round(x, ndigits)`: scale by `10 ^ ndigits`, round half to even,
scale back. -/
def pyRound (ndigits : Nat) (x : Rat) : Rat :=
  (pyRoundHalfEven (x * 10 ^ ndigits) : Rat) / 10 ^ ndigits

/-- `models.Price`: price data for one hour (`models.py` lines 176-194).
Timestamps are already parsed (parsing is the standard-library collaborator). -/
structure Price where
  date_from : Nat
  date_till : Nat
  market_price : Rat
  market_price_tax : Rat
  sourcing_markup_price : Rat
  energy_tax_price : Rat
deriving DecidableEq, Repr

/-- Hour-of-day of an epoch-seconds timestamp (`datetime.hour` in UTC). -/
def hourOf (t : Nat) : Nat := t / 3600 % 24

/-- Midnight UTC of the day containing `t`:
`datetime.replace(hour=0, minute=0, second=0, microsecond=0)`. -/
def dayStart (t : Nat) : Nat := t / 86400 * 86400

/-- `Price.for_now` (lines 200-203): `date_from <= now < date_till`. -/
def Price.for_now (p : Price) (now : Nat) : Bool :=
  p.date_from ≤ now && now < p.date_till

/-- `Price.for_future` (lines 205-208): `date_from.hour > now.hour`. -/
def Price.for_future (p : Price) (now : Nat) : Bool :=
  hourOf now < hourOf p.date_from

/-- `Price.for_today` (lines 210-217): `date_from >= day_start` and
`date_till <= day_start + 1 day`, where `day_start` truncates `now` to
midnight UTC. -/
def Price.for_today (p : Price) (now : Nat) : Bool :=
  dayStart now ≤ p.date_from && p.date_till ≤ dayStart now + 86400

/-- `Price.market_price_with_tax` (lines 219-222). -/
def Price.market_price_with_tax (p : Price) : Rat :=
  pyRound 4 (p.market_price + p.market_price_tax)

/-- `Price.total` (lines 224-233). -/
def Price.total (p : Price) : Rat :=
  pyRound 4 (p.market_price + p.market_price_tax
    + p.sourcing_markup_price + p.energy_tax_price)

/-- A raw price record from the prices query, with its two date strings
already parsed (`Price.__init__`, lines 186-194, applies `parser.parse` to
`from` and `till` and copies the four price fields). -/
structure RawPrice where
  date_from : Nat
  date_till : Nat
  marketPrice : Rat
  marketPriceTax : Rat
  sourcingMarkupPrice : Rat
  energyTaxPrice : Rat
deriving DecidableEq, Repr

/-- `Price.__init__` (lines 186-194). -/
def Price.ofRaw (d : RawPrice) : Price :=
  { date_from := d.date_from
    date_till := d.date_till
    market_price := d.marketPrice
    market_price_tax := d.marketPriceTax
    sourcing_markup_price := d.sourcingMarkupPrice
    energy_tax_price := d.energyTaxPrice }

/-- `models.PriceData`: price data for a period of time (lines 236-295). -/
structure PriceData where
  price_data : List Price
deriving DecidableEq, Repr

/-- `PriceData.__init__` (lines 241-244): `None` leaves the (class-level)
empty list in place, a list is mapped through `Price`. -/
def PriceData.init (raw : Option (List RawPrice)) : PriceData :=
  ⟨(raw.getD []).map Price.ofRaw⟩

/-- `PriceData.__add__` (lines 246-250): concatenation of the two entry
lists into a fresh `PriceData`. -/
def PriceData.add (a b : PriceData) : PriceData :=
  ⟨a.price_data ++ b.price_data⟩

/-- `PriceData.all` (lines 256-259). -/
def PriceData.all (a : PriceData) : List Price := a.price_data

/-- `PriceData.today` (lines 261-264). -/
def PriceData.today (a : PriceData) (now : Nat) : List Price :=
  a.price_data.filter (fun h => h.for_today now)

/-- `PriceData.current_hour` (lines 266-269):
`[hour for hour in self.price_data if hour.for_now][0]`; indexing an empty
list raises, modelled as `none`. -/
def PriceData.current_hour (a : PriceData) (now : Nat) : Option Price :=
  (a.price_data.filter (fun h => h.for_now now)).head?

/-- The loop of Python's builtin `min(xs, key=key)`: the accumulator is
replaced exactly when the new element's key is *strictly* smaller, so the
first occurrence of the minimum wins. -/
def pyMinByGo (key : Price → Rat) (acc : Price) : List Price → Price
  | [] => acc
  | h :: t => pyMinByGo key (if key h < key acc then h else acc) t

/-- Python's `min(xs, key=key)`: raises ValueError on `[]` (modelled as
`none`). -/
def pyMinBy (key : Price → Rat) : List Price → Option Price
  | [] => none
  | x :: xs => some (pyMinByGo key x xs)

/-- The loop of Python's builtin `max(xs, key=key)`: the accumulator is
replaced exactly when the new element's key is *strictly* greater, so the
first occurrence of the maximum wins. -/
def pyMaxByGo (key : Price → Rat) (acc : Price) : List Price → Price
  | [] => acc
  | h :: t => pyMaxByGo key (if key acc < key h then h else acc) t

/-- Python's `max(xs, key=key)`: raises ValueError on `[]` (modelled as
`none`). -/
def pyMaxBy (key : Price → Rat) : List Price → Option Price
  | [] => none
  | x :: xs => some (pyMaxByGo key x xs)

/-- `PriceData.today_min` (lines 271-274): `min(self.today, key=total)`. -/
def PriceData.today_min (a : PriceData) (now : Nat) : Option Price :=
  pyMinBy Price.total (a.today now)

/-- `PriceData.today_max` (lines 276-279): `max(self.today, key=total)`. -/
def PriceData.today_max (a : PriceData) (now : Nat) : Option Price :=
  pyMaxBy Price.total (a.today now)

/-- `PriceData.today_avg` (lines 281-284):
`round(sum(hour.total for hour in self.today) / len(self.today), 5)`;
`len(self.today) == 0` raises ZeroDivisionError, modelled as `none`. -/
def PriceData.today_avg (a : PriceData) (now : Nat) : Option Rat :=
  let t := a.today now
  if t.isEmpty then none
  else some (pyRound 5 (((t.map Price.total).foldl (· + ·) 0) / t.length))

/-- `PriceData.get_future_prices` (lines 286-288). -/
def PriceData.get_future_prices (a : PriceData) (now : Nat) : List Price :=
  a.price_data.filter (fun h => h.for_future now)

/-- Exceptions raised by the response-handling layer (`exceptions.py`):
`AuthException` (raised bare in `_query`, with a message in
`Authentication.from_dict`) and `RequestException` (with the backend
message). -/
inductive FrankError where
  | authException : FrankError
  | requestException : String → FrankError
deriving DecidableEq, Repr

/-- One entry of the top-level `errors` list of a GraphQL response envelope:
only its `message` field is ever inspected. -/
structure RawError where
  message : String
deriving DecidableEq, Repr

/-- `c == d` on characters, folded over two explicit lists: Python's
`str.startswith` on the underlying character sequences. -/
def charListLeq : List Char → List Char → Bool
  | [], _ => true
  | _ :: _, [] => false
  | a :: as, b :: bs => a == b && charListLeq as bs

/-- Python's `s.startswith(pre)`. -/
def pyStartswith (s pre : String) : Bool :=
  charListLeq pre.data s.data

/-- The `data` payload of a prices-query response: the two optional series
keys the mapper reads, plus whether the dict holds any other key (which makes
an otherwise key-less dict truthy under `if not payload`). -/
structure PricesPayload where
  marketPricesElectricity : Option (List RawPrice)
  marketPricesGas : Option (List RawPrice)
  hasOtherKeys : Bool
deriving DecidableEq, Repr

/-- Python truthiness of the payload dict: falsy exactly when it is empty. -/
def PricesPayload.truthy (p : PricesPayload) : Bool :=
  p.marketPricesElectricity.isSome || p.marketPricesGas.isSome || p.hasOtherKeys

/-- The raw JSON envelope handed to `MarketPrices.from_dict`: optional
top-level `errors` list and optional `data` object. -/
structure RawPricesResponse where
  errors : Option (List RawError)
  payload : Option PricesPayload
deriving DecidableEq, Repr

/-- `models.MarketPrices` (lines 298-303). -/
structure MarketPrices where
  electricity : PriceData
  gas : PriceData
deriving DecidableEq, Repr

/-- The sentinel prefix checked at `models.py` line 311. -/
def noMarketpricesSentinel : String := "No marketprices found for segment"

/-- `MarketPrices.from_dict` (lines 305-323). `if errors := data.get("errors")`
is truthy only for a present non-empty list; `errors[0]["message"]` is the
head's message; `if not payload` catches an absent or empty `data` object. -/
def MarketPrices.from_dict (r : RawPricesResponse) : Except FrankError MarketPrices :=
  match r.errors with
  | some (e :: _) =>
      if pyStartswith e.message noMarketpricesSentinel then
        .ok ⟨PriceData.init none, PriceData.init none⟩
      else
        .error (.requestException e.message)
  | _ =>
      match r.payload with
      | some payload =>
          if payload.truthy then
            .ok ⟨PriceData.init payload.marketPricesElectricity,
                 PriceData.init payload.marketPricesGas⟩
          else .error (.requestException "Unexpected response")
      | none => .error (.requestException "Unexpected response")

/-- The sentinel message checked at `frank_energie.py` line 69. -/
def notAuthorisedSentinel : String := "user-error:auth-not-authorised"

/-- The loop of `FrankEnergie._query` lines 67-71: walk the error list and
raise `AuthException` at the first entry whose message equals the sentinel. -/
def raiseForCommonErrors : List RawError → Except FrankError Unit
  | [] => .ok ()
  | e :: rest =>
      if e.message = notAuthorisedSentinel then .error .authException
      else raiseForCommonErrors rest

/-- The response-handling step of `FrankEnergie._query` (lines 66-72): a
truthy (present, non-empty) `errors` list is scanned for the
not-authorised sentinel; otherwise the response passes through. -/
def FrankEnergie.checkCommonErrors (errors : Option (List RawError)) :
    Except FrankError Unit :=
  match errors with
  | some es => raiseForCommonErrors es
  | none => .ok ()

/-- `models.Authentication` (lines 16-27): in `FrankEnergie.__init__` either
member may be `None`, so both are optional here. -/
structure Authentication where
  authToken : Option String
  refreshToken : Option String
deriving DecidableEq, Repr

/-- The auth-relevant state of a `FrankEnergie` client. -/
structure FrankEnergie where
  auth : Option Authentication
deriving DecidableEq, Repr

/-- `FrankEnergie.__init__` (lines 27-42): `_auth` is set to
`Authentication(auth_token, refresh_token)` when *either* argument is not
`None`, and left `None` otherwise. -/
def FrankEnergie.init (auth_token refresh_token : Option String) : FrankEnergie :=
  if auth_token.isSome || refresh_token.isSome then
    ⟨some ⟨auth_token, refresh_token⟩⟩
  else ⟨none⟩

/-- `FrankEnergie.is_authenticated` (lines 338-344): `_auth is not None`. -/
def FrankEnergie.is_authenticated (c : FrankEnergie) : Bool :=
  c.auth.isSome

/-- C1: for every raw price record, the derived `total` of the constructed
`Price` is the sum of the four price components rounded to 4 decimal places,
and `market_price_with_tax` is `marketPrice + marketPriceTax` rounded to 4
decimal places. -/
theorem C1_price_total_and_with_tax (d : RawPrice) :
    (Price.ofRaw d).total
        = pyRound 4 (d.marketPrice + d.marketPriceTax
            + d.sourcingMarkupPrice + d.energyTaxPrice)
      ∧ (Price.ofRaw d).market_price_with_tax
        = pyRound 4 (d.marketPrice + d.marketPriceTax) :=
  ⟨rfl, rfl⟩

/-- C2: combining price series concatenates the entry lists in order: the
combined series' entries are exactly `a`'s followed by `b`'s, its length is
the sum of the lengths, and combination is associative on contents. -/
theorem C2_add_concat_length_assoc (a b c : PriceData) :
    (a.add b).all = a.all ++ b.all
      ∧ (a.add b).all.length = a.all.length + b.all.length
      ∧ ((a.add b).add c).all = (a.add (b.add c)).all := by
  refine ⟨rfl, ?_, ?_⟩
  · simp [PriceData.add, PriceData.all]
  · simp [PriceData.add, PriceData.all]

/-- C3: a prices response whose error list is present (non-empty) and whose
message starts with the no-data-for-segment sentinel maps to a
`MarketPrices` with empty electricity and gas series, raising nothing. -/
theorem C3_segment_sentinel_yields_empty (r : RawPricesResponse)
    (e : RawError) (rest : List RawError)
    (herr : r.errors = some (e :: rest))
    (hmsg : pyStartswith e.message noMarketpricesSentinel = true) :
    MarketPrices.from_dict r = .ok ⟨⟨[]⟩, ⟨[]⟩⟩ := by
  simp [MarketPrices.from_dict, herr, hmsg, PriceData.init]

/-- Witness for C3 at the concrete response
`{"errors": [{"message": "No marketprices found for segment GAS"}]}`. -/
theorem C3_segment_sentinel_yields_empty_witness :
    MarketPrices.from_dict
        ⟨some [⟨"No marketprices found for segment GAS"⟩], none⟩
      = .ok ⟨⟨[]⟩, ⟨[]⟩⟩ :=
  C3_segment_sentinel_yields_empty _ _ _ rfl (by decide)

/-- Helper for C4: the error-scanning loop of `_query` raises
`AuthException` whenever some entry's message equals the sentinel. -/
theorem raiseForCommonErrors_of_mem (es : List RawError) (e : RawError)
    (hmem : e ∈ es) (hmsg : e.message = notAuthorisedSentinel) :
    raiseForCommonErrors es = .error .authException := by
  induction es with
  | nil => cases hmem
  | cons h t ih =>
    by_cases hh : h.message = notAuthorisedSentinel
    · simp [raiseForCommonErrors, hh]
    · rcases List.mem_cons.mp hmem with rfl | hm
      · exact absurd hmsg hh
      · simp [raiseForCommonErrors, hh, ih hm]

/-- C4: a raw response whose top-level error list contains an entry with
message `"user-error:auth-not-authorised"` makes the `_query`
response-handling step raise `AuthException`. -/
theorem C4_not_authorised_raises_auth (es : List RawError) (e : RawError)
    (hmem : e ∈ es) (hmsg : e.message = notAuthorisedSentinel) :
    FrankEnergie.checkCommonErrors (some es) = .error .authException := by
  simpa [FrankEnergie.checkCommonErrors] using
    raiseForCommonErrors_of_mem es e hmem hmsg

/-- Witness for C4 at the concrete response
`{"errors": [{"message": "user-error:auth-not-authorised"}]}`. -/
theorem C4_not_authorised_raises_auth_witness :
    FrankEnergie.checkCommonErrors
        (some [⟨"user-error:auth-not-authorised"⟩])
      = .error .authException :=
  C4_not_authorised_raises_auth
    [⟨"user-error:auth-not-authorised"⟩] ⟨"user-error:auth-not-authorised"⟩
    (List.mem_singleton.mpr rfl) rfl

/-- C9 counterexample: a client constructed with an auth token but no
refresh token reports `is_authenticated = true`, although no full token
pair (authToken *and* refreshToken) has been set — so `is_authenticated`
is not equivalent to a full token pair being set. -/
theorem C9_pair_iff_counterexample :
    (FrankEnergie.init (some ("token")) none).is_authenticated = true
      ∧ ((some ("token") : Option String).isSome
          && (none : Option String).isSome) = false := by
  constructor <;> rfl

/-- C9 amended: `is_authenticated` is true iff at least one of the two
token arguments was supplied at construction (the client then holds an
`Authentication` whose missing member is `None`); in particular a client
constructed with neither token reports not authenticated. -/
theorem C9_is_authenticated_iff_some_token (a r : Option String) :
    (FrankEnergie.init a r).is_authenticated = (a.isSome || r.isSome)
      ∧ (FrankEnergie.init none none).is_authenticated = false := by
  refine ⟨?_, rfl⟩
  cases a <;> cases r <;>
    simp [FrankEnergie.init, FrankEnergie.is_authenticated]

/-- The head of a filtered list is the first element satisfying the
predicate. -/
theorem head?_filter_eq_find? (f : Price → Bool) (l : List Price) :
    (l.filter f).head? = l.find? f := by
  induction l with
  | nil => rfl
  | cons h t ih =>
    by_cases hh : f h
    · rw [List.filter_cons, if_pos hh, List.find?_cons_of_pos _ hh, List.head?_cons]
    · rw [List.filter_cons, if_neg (by simpa using hh),
        List.find?_cons_of_neg _ (by simpa using hh), ih]

/-- C5: `current_hour` returns the first entry in series order whose
`for_now` predicate (`date_from <= now < date_till`) holds, and fails
(`none`, the IndexError of `[...][0]`) exactly when no entry is current. -/
theorem C5_current_hour_first_match (a : PriceData) (now : Nat) :
    (∀ p : Price, p.for_now now = true ↔ p.date_from ≤ now ∧ now < p.date_till)
  ∧ (a.current_hour now = none ↔ ∀ p ∈ a.price_data, p.for_now now = false)
  ∧ (∀ p, a.current_hour now = some p ↔
      p.for_now now = true ∧ ∃ pre post, a.price_data = pre ++ p :: post
        ∧ ∀ q ∈ pre, q.for_now now = false) := by
  refine ⟨fun p => by simp [Price.for_now], ?_, ?_⟩
  · unfold PriceData.current_hour
    rw [head?_filter_eq_find?, List.find?_eq_none]
    simp
  · intro p
    unfold PriceData.current_hour
    rw [head?_filter_eq_find?, List.find?_eq_some]
    simp

/-- The Python `min` loop either keeps its accumulator (when nothing in the
list beats it strictly) or returns the first element of the list that
attains a key strictly below the accumulator and at most every other key. -/
theorem pyMinByGo_spec (key : Price → Rat) (xs : List Price) :
    ∀ acc : Price,
      (pyMinByGo key acc xs = acc ∧ ∀ q ∈ xs, key acc ≤ key q)
      ∨ (∃ pre r post, xs = pre ++ r :: post ∧ pyMinByGo key acc xs = r
          ∧ key r < key acc ∧ (∀ q ∈ pre, key r < key q)
          ∧ ∀ q ∈ xs, key r ≤ key q) := by
  induction xs with
  | nil => exact fun acc => Or.inl ⟨rfl, by simp⟩
  | cons h t ih =>
    intro acc
    by_cases hh : key h < key acc
    · rcases ih h with ⟨heq, hmin⟩ | ⟨pre, r, post, heq, hres, hlt, hpre, hmin⟩
      · refine Or.inr ⟨[], h, t, rfl, ?_, hh, by simp, ?_⟩
        · simpa [pyMinByGo, if_pos hh] using heq
        · intro q hq
          rcases List.mem_cons.mp hq with rfl | hq'
          · exact le_refl _
          · exact hmin q hq'
      · refine Or.inr ⟨h :: pre, r, post, by rw [heq, List.cons_append], ?_, lt_trans hlt hh, ?_, ?_⟩
        · simpa [pyMinByGo, if_pos hh] using hres
        · intro q hq
          rcases List.mem_cons.mp hq with rfl | hq'
          · exact hlt
          · exact hpre q hq'
        · intro q hq
          rcases List.mem_cons.mp hq with rfl | hq'
          · exact le_of_lt hlt
          · exact hmin q (heq ▸ hq')
    · have hle : key acc ≤ key h := not_lt.mp hh
      rcases ih acc with ⟨heq, hmin⟩ | ⟨pre, r, post, heq, hres, hlt, hpre, hmin⟩
      · refine Or.inl ⟨by simpa [pyMinByGo, if_neg hh] using heq, ?_⟩
        intro q hq
        rcases List.mem_cons.mp hq with rfl | hq'
        · exact hle
        · exact hmin q hq'
      · refine Or.inr ⟨h :: pre, r, post, by rw [heq, List.cons_append], ?_, hlt, ?_, ?_⟩
        · simpa [pyMinByGo, if_neg hh] using hres
        · intro q hq
          rcases List.mem_cons.mp hq with rfl | hq'
          · exact lt_of_lt_of_le hlt hle
          · exact hpre q hq'
        · intro q hq
          rcases List.mem_cons.mp hq with rfl | hq'
          · exact le_trans (le_of_lt hlt) hle
          · exact hmin q (heq ▸ hq')

/-- Python's `min(l, key=key)` on a non-empty list returns a global minimum
that is the first occurrence of that minimum in list order. -/
theorem pyMinBy_spec (key : Price → Rat) (l : List Price) (p : Price)
    (h : pyMinBy key l = some p) :
    (∀ q ∈ l, key p ≤ key q)
      ∧ ∃ pre post, l = pre ++ p :: post ∧ ∀ q ∈ pre, key p < key q := by
  cases l with
  | nil => cases h
  | cons x xs =>
    have h' : pyMinByGo key x xs = p := by simpa [pyMinBy] using h
    rcases pyMinByGo_spec key xs x with ⟨heq, hmin⟩ | ⟨pre, r, post, heq, hres, hlt, hpre, hmin⟩
    · have hpx : p = x := by rw [← h', heq]
      subst hpx
      refine ⟨?_, [], xs, rfl, by simp⟩
      intro q hq
      rcases List.mem_cons.mp hq with rfl | hq'
      · exact le_refl _
      · exact hmin q hq'
    · have hpr : p = r := by rw [← h', hres]
      subst hpr
      refine ⟨?_, x :: pre, post, by rw [heq, List.cons_append], ?_⟩
      · intro q hq
        rcases List.mem_cons.mp hq with rfl | hq'
        · exact le_of_lt hlt
        · exact hmin q (heq ▸ hq')
      · intro q hq
        rcases List.mem_cons.mp hq with rfl | hq'
        · exact hlt
        · exact hpre q hq'

/-- The Python `max` loop is the `min` loop on the negated key. -/
theorem pyMaxByGo_eq_minByGo_neg (key : Price → Rat) (xs : List Price) :
    ∀ acc : Price,
      pyMaxByGo key acc xs = pyMinByGo (fun p => -(key p)) acc xs := by
  induction xs with
  | nil => exact fun _ => rfl
  | cons h t ih =>
    intro acc
    simp only [pyMaxByGo, pyMinByGo]
    rw [ih]
    congr 1
    by_cases hh : key acc < key h
    · rw [if_pos hh, if_pos (neg_lt_neg hh)]
    · rw [if_neg hh, if_neg (fun hc => hh (neg_lt_neg_iff.mp hc))]

/-- Python's `max(l, key=key)` on a non-empty list returns a global maximum
that is the first occurrence of that maximum in list order. -/
theorem pyMaxBy_spec (key : Price → Rat) (l : List Price) (p : Price)
    (h : pyMaxBy key l = some p) :
    (∀ q ∈ l, key q ≤ key p)
      ∧ ∃ pre post, l = pre ++ p :: post ∧ ∀ q ∈ pre, key q < key p := by
  have h' : pyMinBy (fun q => -(key q)) l = some p := by
    cases l with
    | nil => cases h
    | cons x xs =>
      simpa [pyMinBy, pyMaxBy, ← pyMaxByGo_eq_minByGo_neg] using h
  have := pyMinBy_spec (fun q => -(key q)) l p h'
  refine ⟨fun q hq => ?_, ?_⟩
  · have := this.1 q hq
    simpa using neg_le_neg_iff.mp this
  · obtain ⟨pre, post, heq, hpre⟩ := this.2
    exact ⟨pre, post, heq, fun q hq => by simpa using neg_lt_neg_iff.mp (hpre q hq)⟩

/-- C6: `today_min` / `today_max` return the entry with least / greatest
`total` among today's entries, first occurrence winning ties (every earlier
today-entry has a strictly worse total), and fail (`none`, Python's
ValueError on an empty `min`/`max`) exactly when the day subset is empty. -/
theorem C6_today_min_max (a : PriceData) (now : Nat) :
    (a.today now = [] → a.today_min now = none ∧ a.today_max now = none)
  ∧ (a.today now ≠ [] → (a.today_min now).isSome ∧ (a.today_max now).isSome)
  ∧ (∀ p, a.today_min now = some p →
      (∀ q ∈ a.today now, p.total ≤ q.total)
        ∧ ∃ pre post, a.today now = pre ++ p :: post
            ∧ ∀ q ∈ pre, p.total < q.total)
  ∧ (∀ p, a.today_max now = some p →
      (∀ q ∈ a.today now, q.total ≤ p.total)
        ∧ ∃ pre post, a.today now = pre ++ p :: post
            ∧ ∀ q ∈ pre, q.total < p.total) := by
  refine ⟨?_, ?_, ?_, ?_⟩
  · intro h
    unfold PriceData.today_min PriceData.today_max
    rw [h]
    exact ⟨rfl, rfl⟩
  · intro h
    unfold PriceData.today_min PriceData.today_max
    cases hl : a.today now with
    | nil => exact absurd hl h
    | cons x xs => exact ⟨rfl, rfl⟩
  · exact fun p hp => pyMinBy_spec Price.total (a.today now) p hp
  · exact fun p hp => pyMaxBy_spec Price.total (a.today now) p hp

/-- C7: over a non-empty day subset, `today_avg` is the sum of the day
entries' totals divided by their count, rounded to 5 decimal places; over an
empty day subset it fails (`none`, the unhandled ZeroDivisionError of
`/ len(self.today)`). -/
theorem C7_today_avg (a : PriceData) (now : Nat) :
    (a.today now = [] → a.today_avg now = none)
  ∧ (a.today now ≠ [] →
      a.today_avg now
        = some (pyRound 5
            (((a.today now).map Price.total).sum / (a.today now).length))) := by
  constructor
  · intro h
    simp [PriceData.today_avg, h]
  · intro h
    rw [List.sum_eq_foldl]
    simp only [PriceData.today_avg]
    rw [if_neg (by simpa [List.isEmpty_iff] using h)]

/-- Witness for C5: in a two-entry series where only the first entry covers
`now = 1800`, `current_hour` returns that first entry. -/
theorem C5_current_hour_first_match_witness :
    (⟨[⟨0, 3600, 1, 0, 0, 0⟩, ⟨3600, 7200, 2, 0, 0, 0⟩]⟩ : PriceData).current_hour 1800
      = some ⟨0, 3600, 1, 0, 0, 0⟩ :=
  ((C5_current_hour_first_match
      ⟨[⟨0, 3600, 1, 0, 0, 0⟩, ⟨3600, 7200, 2, 0, 0, 0⟩]⟩ 1800).2.2
    ⟨0, 3600, 1, 0, 0, 0⟩).mpr
    ⟨by decide, [], [⟨3600, 7200, 2, 0, 0, 0⟩], rfl, by simp⟩

/-- Witness for C6: in a two-entry day with totals `2` and `1`, `today_min`
is the second entry and its total is at most the first entry's. -/
theorem C6_today_min_max_witness :
    (⟨[⟨0, 3600, 2, 0, 0, 0⟩, ⟨3600, 7200, 1, 0, 0, 0⟩]⟩ : PriceData).today_min 0
        = some ⟨3600, 7200, 1, 0, 0, 0⟩
      ∧ (⟨3600, 7200, 1, 0, 0, 0⟩ : Price).total
          ≤ (⟨0, 3600, 2, 0, 0, 0⟩ : Price).total := by
  have ht1 : (⟨0, 3600, 2, 0, 0, 0⟩ : Price).total = 2 := by
    simp only [Price.total, pyRound, pyRoundHalfEven]
    norm_num
  have ht2 : (⟨3600, 7200, 1, 0, 0, 0⟩ : Price).total = 1 := by
    simp only [Price.total, pyRound, pyRoundHalfEven]
    norm_num
  have htoday :
      (⟨[⟨0, 3600, 2, 0, 0, 0⟩, ⟨3600, 7200, 1, 0, 0, 0⟩]⟩ : PriceData).today 0
        = [⟨0, 3600, 2, 0, 0, 0⟩, ⟨3600, 7200, 1, 0, 0, 0⟩] := by decide
  have hmin :
      (⟨[⟨0, 3600, 2, 0, 0, 0⟩, ⟨3600, 7200, 1, 0, 0, 0⟩]⟩ : PriceData).today_min 0
        = some ⟨3600, 7200, 1, 0, 0, 0⟩ := by
    unfold PriceData.today_min
    rw [htoday]
    simp only [pyMinBy, pyMinByGo]
    rw [if_pos (by rw [ht1, ht2]; norm_num)]
  have h := (C6_today_min_max
      ⟨[⟨0, 3600, 2, 0, 0, 0⟩, ⟨3600, 7200, 1, 0, 0, 0⟩]⟩ 0).2.2.1
    ⟨3600, 7200, 1, 0, 0, 0⟩ hmin
  exact ⟨hmin, h.1 ⟨0, 3600, 2, 0, 0, 0⟩ (by rw [htoday]; simp)⟩

/-- Witness for C7, the spec's example: day totals `[10, 20]` average to
`15` (rounded to 5 decimals). -/
theorem C7_today_avg_witness :
    (⟨[⟨0, 3600, 10, 0, 0, 0⟩, ⟨3600, 7200, 20, 0, 0, 0⟩]⟩ : PriceData).today_avg 0
      = some 15 := by
  have htoday :
      (⟨[⟨0, 3600, 10, 0, 0, 0⟩, ⟨3600, 7200, 20, 0, 0, 0⟩]⟩ : PriceData).today 0
        = [⟨0, 3600, 10, 0, 0, 0⟩, ⟨3600, 7200, 20, 0, 0, 0⟩] := by decide
  have ht1 : (⟨0, 3600, 10, 0, 0, 0⟩ : Price).total = 10 := by
    simp only [Price.total, pyRound, pyRoundHalfEven]
    norm_num
  have ht2 : (⟨3600, 7200, 20, 0, 0, 0⟩ : Price).total = 20 := by
    simp only [Price.total, pyRound, pyRoundHalfEven]
    norm_num
  have h := (C7_today_avg
      ⟨[⟨0, 3600, 10, 0, 0, 0⟩, ⟨3600, 7200, 20, 0, 0, 0⟩]⟩ 0).2
    (by rw [htoday]; simp)
  rw [h, htoday]
  simp only [List.map_cons, List.map_nil, List.sum_cons, List.sum_nil,
    List.length_cons, List.length_nil, ht1, ht2]
  simp only [pyRound, pyRoundHalfEven]
  norm_num

/-- Hour-of-day is invariant under shifting by whole days. -/
theorem hourOf_add_days (t d : Nat) : hourOf (t + 86400 * d) = hourOf t := by
  unfold hourOf
  have h1 : t + 86400 * d = t + 3600 * (24 * d) := by ring
  rw [h1, Nat.add_mul_div_left _ _ (by norm_num : 0 < 3600),
    Nat.add_mul_mod_self_left]

/-- C8: `for_future` holds exactly when the entry's starting hour-of-day
exceeds the current hour-of-day; it compares hours only, so shifting either
timestamp by whole days never changes it. -/
theorem C8_for_future_hour_only (p : Price) (now : Nat) :
    (p.for_future now = true ↔ hourOf p.date_from > hourOf now)
  ∧ (∀ d : Nat,
      Price.for_future { p with date_from := p.date_from + 86400 * d } now
        = p.for_future now)
  ∧ (∀ d : Nat, p.for_future (now + 86400 * d) = p.for_future now) := by
  refine ⟨by simp [Price.for_future, gt_iff_lt], ?_, ?_⟩
  · intro d
    simp [Price.for_future, hourOf_add_days]
  · intro d
    simp [Price.for_future, hourOf_add_days]

/-- Witness for C8: an entry starting at hour 2 of the day is "future" at
`now = 0` (hour 0), and stays so when its start is shifted by a whole day. -/
theorem C8_for_future_hour_only_witness :
    (⟨7200, 10800, 0, 0, 0, 0⟩ : Price).for_future 0 = true
      ∧ Price.for_future (⟨7200 + 86400 * 1, 10800, 0, 0, 0, 0⟩ : Price) 0
        = (⟨7200, 10800, 0, 0, 0, 0⟩ : Price).for_future 0 :=
  ⟨((C8_for_future_hour_only ⟨7200, 10800, 0, 0, 0, 0⟩ 0).1).mpr (by decide),
    (C8_for_future_hour_only ⟨7200, 10800, 0, 0, 0, 0⟩ 0).2.1 1⟩

/-- C10: with no (truthy) top-level errors and a truthy `data` object, a
missing `marketPricesElectricity` (resp. `marketPricesGas`) key yields an
empty electricity (resp. gas) series rather than an exception. -/
theorem C10_missing_key_yields_empty_series (r : RawPricesResponse)
    (payload : PricesPayload)
    (herr : r.errors = none ∨ r.errors = some [])
    (hdata : r.payload = some payload)
    (ht : payload.truthy = true) :
    (payload.marketPricesElectricity = none →
        MarketPrices.from_dict r
          = .ok ⟨⟨[]⟩, PriceData.init payload.marketPricesGas⟩)
      ∧ (payload.marketPricesGas = none →
        MarketPrices.from_dict r
          = .ok ⟨PriceData.init payload.marketPricesElectricity, ⟨[]⟩⟩) := by
  have hfd : MarketPrices.from_dict r
      = .ok ⟨PriceData.init payload.marketPricesElectricity,
             PriceData.init payload.marketPricesGas⟩ := by
    rcases herr with h | h <;> simp [MarketPrices.from_dict, h, hdata, ht]
  exact ⟨fun he => by rw [hfd, he]; rfl, fun hg => by rw [hfd, hg]; rfl⟩

/-- Witness for C10 at a concrete response whose truthy `data` object lacks
both series keys. -/
theorem C10_missing_key_yields_empty_series_witness :
    MarketPrices.from_dict ⟨none, some ⟨none, none, true⟩⟩
      = .ok ⟨⟨[]⟩, ⟨[]⟩⟩ :=
  (C10_missing_key_yields_empty_series ⟨none, some ⟨none, none, true⟩⟩
    ⟨none, none, true⟩ (Or.inl rfl) rfl rfl).1 rfl
